import Mathlib

/-!
Verification of `stddraw.py` from the oleary-stdlib repository.

The module keeps its whole canvas in module-level globals; we embed that
shared state as the structure `St` below, and each Python function that
reads or mutates the globals becomes a Lean function on `St` (returning
`Except String St` when the Python function can raise).  Python floats
are modelled as rationals `ℚ`; Python lists keep their list structure
(in particular `_mouse_position` stays a `List ℤ`, because the code tests
its *truthiness*, i.e. non-emptiness, not whether a click happened).
Drawing calls into pygame are recorded as an append-only command log.
-/

namespace StdDraw

/-- The `color.Color` class of `color.py`: an RGB colour. -/
structure Color where
  red : ℤ
  green : ℤ
  blue : ℤ
deriving DecidableEq, Repr

def BLACK : Color := ⟨0, 0, 0⟩

def WHITE : Color := ⟨255, 255, 255⟩

/-- A pygame drawing call recorded on a surface.  Arguments are kept as the
Python code passes them (device-space rationals; `pixel` coordinates are the
`int(round(.))` of the scaled position; `border` is the width argument). -/
inductive DrawCmd where
  | fill (c : Color)
  | pixel (x y : ℤ) (c : Color)
  | ellipse (x y w h : ℚ) (border : ℤ) (c : Color)
  | rect (x y w h : ℚ) (border : ℤ) (c : Color)
  | lineSeg (x0 y0 x1 y1 : ℚ) (width : ℤ) (c : Color)
deriving DecidableEq, Repr

/-- The module-level globals of `stddraw.py`. -/
structure St where
  xMin : ℚ
  xMax : ℚ
  yMin : ℚ
  yMax : ℚ
  fontFamily : String
  fontSize : ℤ
  canvasWidth : ℚ
  canvasHeight : ℚ
  penRadius : ℚ
  penColor : Color
  keysTyped : List String
  windowCreated : Bool
  mousePressed : Bool
  mousePosition : List ℤ
  surface : List DrawCmd
deriving DecidableEq, Repr

/-- Source: `_BORDER = 0.0` -/
def BORDER : ℚ := 0

/-- Source: `_DEFAULT_CANVAS_SIZE = 512` -/
def DEFAULT_CANVAS_SIZE : ℚ := 512

/-- The initial values of the module globals. -/
def initialState : St where
  xMin := 0
  xMax := 1
  yMin := 0
  yMax := 1
  fontFamily := "Helvetica"
  fontSize := 12
  canvasWidth := 512
  canvasHeight := 512
  penRadius := 1/200
  penColor := BLACK
  keysTyped := []
  windowCreated := false
  mousePressed := false
  mousePosition := [0, 0]
  surface := []

/-- Python `int(round(q))`: round half to even, as `round` does in Python 3. -/
def pyRound (q : ℚ) : ℤ :=
  let f := ⌊q⌋
  let frac := q - f
  if frac < 1/2 then f
  else if 1/2 < frac then f + 1
  else if f % 2 = 0 then f else f + 1

/-- Source: `_scale_x(x) = _canvas_width * (x - _x_min) / (_x_max - _x_min)` -/
def scale_x (s : St) (x : ℚ) : ℚ :=
  s.canvasWidth * (x - s.xMin) / (s.xMax - s.xMin)

/-- Source: `_scale_y(y) = _canvas_height * (_y_max - y) / (_y_max - _y_min)` -/
def scale_y (s : St) (y : ℚ) : ℚ :=
  s.canvasHeight * (s.yMax - y) / (s.yMax - s.yMin)

/-- Source: `_factor_x(w) = w * _canvas_width / abs(_x_max - _x_min)` -/
def factor_x (s : St) (w : ℚ) : ℚ :=
  w * s.canvasWidth / |s.xMax - s.xMin|

/-- Source: `_factor_y(h) = h * _canvas_height / abs(_y_max - _y_min)` -/
def factor_y (s : St) (h : ℚ) : ℚ :=
  h * s.canvasHeight / |s.yMax - s.yMin|

/-- Source: `_user_x(x) = _x_min + x * (_x_max - _x_min) / _canvas_width` -/
def user_x (s : St) (x : ℚ) : ℚ :=
  s.xMin + x * (s.xMax - s.xMin) / s.canvasWidth

/-- Source: `_user_y(y) = _y_max - y * (_y_max - _y_min) / _canvas_height` -/
def user_y (s : St) (y : ℚ) : ℚ :=
  s.yMax - y * (s.yMax - s.yMin) / s.canvasHeight

/-- Source: `set_canvas_size(w, h)`.  Both `raise` statements come before any
assignment to the globals, so on error the state is unchanged.  On success
the canvas dimensions are set, a fresh surface is created and filled white
(pygame display/caption calls are outside the state model), and
`_window_created` becomes true. -/
def set_canvas_size (w h : ℚ) (s : St) : Except String St :=
  if s.windowCreated then
    Except.error "The stddraw window already was created"
  else if w < 1 ∨ h < 1 then
    Except.error "width and height must be positive"
  else
    Except.ok { s with
      canvasWidth := w
      canvasHeight := h
      surface := [DrawCmd.fill WHITE]
      windowCreated := true }

/-- Source: `set_x_scale(minimum, maximum)`; the `raise` precedes the assignments. -/
def set_x_scale (minimum maximum : ℚ) (s : St) : Except String St :=
  if minimum ≥ maximum then
    Except.error "minimum must be less than maximum"
  else
    let size := maximum - minimum
    Except.ok { s with
      xMin := minimum - BORDER * size
      xMax := maximum + BORDER * size }

/-- Source: `set_y_scale(minimum, maximum)`; the `raise` precedes the assignments. -/
def set_y_scale (minimum maximum : ℚ) (s : St) : Except String St :=
  if minimum ≥ maximum then
    Except.error "minimum must be less than maximum"
  else
    let size := maximum - minimum
    Except.ok { s with
      yMin := minimum - BORDER * size
      yMax := maximum + BORDER * size }

/-- Source: `set_pen_radius(r)`; the `raise` precedes the assignment. -/
def set_pen_radius (r : ℚ) (s : St) : Except String St :=
  if r < 0 then
    Except.error "Argument to set_pen_radius() must be non-neg"
  else
    Except.ok { s with penRadius := r * DEFAULT_CANVAS_SIZE }

/-- Source: `set_pen_color(c)` -/
def set_pen_color (c : Color) (s : St) : St :=
  { s with penColor := c }

/-- Source: `set_font_family(f)` -/
def set_font_family (f : String) (s : St) : St :=
  { s with fontFamily := f }

/-- Source: `set_font_size(sz)` -/
def set_font_size (sz : ℤ) (s : St) : St :=
  { s with fontSize := sz }

/-- Source: `_make_sure_window_created()`: lazily creates the window with the default
canvas size.  When the window does not exist yet no drawing function has run,
so the checks inside `set_canvas_size` pass (512 ≥ 1) and it cannot raise. -/
def ensureWindow (s : St) : St :=
  if s.windowCreated then s
  else { s with
    canvasWidth := 512
    canvasHeight := 512
    surface := [DrawCmd.fill WHITE]
    windowCreated := true }

/-- Source: `_pixel(x, y)`: draw one pixel at the rounded device position. -/
def pixelOp (x y : ℚ) (s : St) : St :=
  let s := ensureWindow s
  { s with surface := s.surface ++
      [DrawCmd.pixel (pyRound (scale_x s x)) (pyRound (scale_y s y)) s.penColor] }

/-- Source: `circle(x, y, r)` -/
def circle (x y r : ℚ) (s : St) : St :=
  let s := ensureWindow s
  let ws := factor_x s (2 * r)
  let hs := factor_y s (2 * r)
  if ws ≤ 1 ∧ hs ≤ 1 then
    pixelOp x y s
  else
    let xs := scale_x s x
    let ys := scale_y s y
    { s with surface := s.surface ++
        [DrawCmd.ellipse (xs - ws/2) (ys - hs/2) ws hs (pyRound s.penRadius) s.penColor] }

/-- Source: `filled_circle(x, y, r)` -/
def filled_circle (x y r : ℚ) (s : St) : St :=
  let s := ensureWindow s
  let ws := factor_x s (2 * r)
  let hs := factor_y s (2 * r)
  if ws ≤ 1 ∧ hs ≤ 1 then
    pixelOp x y s
  else
    let xs := scale_x s x
    let ys := scale_y s y
    { s with surface := s.surface ++
        [DrawCmd.ellipse (xs - ws/2) (ys - hs/2) ws hs 0 s.penColor] }

/-- Source: `rectangle(x, y, w, h)` -/
def rectangle (x y w h : ℚ) (s : St) : St :=
  let s := ensureWindow s
  let ws := factor_x s w
  let hs := factor_y s h
  if ws ≤ 1 ∧ hs ≤ 1 then
    pixelOp x y s
  else
    let xs := scale_x s x
    let ys := scale_y s y
    { s with surface := s.surface ++
        [DrawCmd.rect xs (ys - hs) ws hs (pyRound s.penRadius) s.penColor] }

/-- Source: `filled_rectangle(x, y, w, h)` -/
def filled_rectangle (x y w h : ℚ) (s : St) : St :=
  let s := ensureWindow s
  let ws := factor_x s w
  let hs := factor_y s h
  if ws ≤ 1 ∧ hs ≤ 1 then
    pixelOp x y s
  else
    let xs := scale_x s x
    let ys := scale_y s y
    { s with surface := s.surface ++
        [DrawCmd.rect xs (ys - hs) ws hs 0 s.penColor] }

/-- Source: `square(x, y, r)` -/
def square (x y r : ℚ) (s : St) : St :=
  rectangle (x - r) (y - r) (2 * r) (2 * r) (ensureWindow s)

/-- Source: `filled_square(x, y, r)` -/
def filled_square (x y r : ℚ) (s : St) : St :=
  filled_rectangle (x - r) (y - r) (2 * r) (2 * r) (ensureWindow s)

/-- Source: `_thick_line(x0, y0, x1, y1, r)`, with an explicit recursion budget:
`thickLineFuel n` performs the recursion of the Python function as long as
the budget `n` lasts, and returns `none` when the budget runs out.  The
Python function terminates exactly when some finite budget suffices. -/
def thickLineFuel : Nat → ℚ → ℚ → ℚ → ℚ → ℚ → St → Option St
  | 0, _, _, _, _, _, _ => none
  | n + 1, x0, y0, x1, y1, r, s =>
    if |scale_x s x0 - scale_x s x1| < 1 ∧ |scale_y s y0 - scale_y s y1| < 1 then
      some (filled_circle x0 y0 r s)
    else
      let xMid := (x0 + x1) / 2
      let yMid := (y0 + y1) / 2
      match thickLineFuel n x0 y0 xMid yMid r s with
      | none => none
      | some s1 => thickLineFuel n xMid yMid x1 y1 r s1

/-- One user-event, as read off the pygame event queue. -/
inductive Event where
  | keyDown (k : String)
  | mouseButtonDown (button : ℤ) (px py : ℤ)
  | mouseButtonUp (button : ℤ) (px py : ℤ)
deriving DecidableEq, Repr

/-- One iteration of the `for event in pygame.event.get()` loop in
`_check_for_events`.  (`pygame.QUIT` exits the process and a right-button-up
opens the save dialog; neither touches the state modelled here.) -/
def processEvent (s : St) (e : Event) : St :=
  match e with
  | Event.keyDown k => { s with keysTyped := [k] ++ s.keysTyped }
  | Event.mouseButtonDown b px py =>
      if b = 1 then { s with mousePressed := true, mousePosition := [px, py] }
      else s
  | Event.mouseButtonUp _ _ _ => s

/-- Source: `_check_for_events()`, fed the list of pending events. -/
def check_for_events (events : List Event) (s : St) : St :=
  events.foldl processEvent (ensureWindow s)

/-- Source: `has_next_key_typed()` -/
def has_next_key_typed (s : St) : Bool :=
  s.keysTyped ≠ []

/-- Source: `next_key_typed()`: `_keys_typed.pop()` removes and returns the *last*
element of the Python list (raising `IndexError` when it is empty). -/
def next_key_typed (s : St) : Except String (String × St) :=
  match s.keysTyped.getLast? with
  | none => Except.error "pop from empty list"
  | some k => Except.ok (k, { s with keysTyped := s.keysTyped.dropLast })

/-- Source: `mouse_pressed()` -/
def mouse_pressed (s : St) : Bool × St :=
  if s.mousePressed then (true, { s with mousePressed := false })
  else (false, s)

/-- Source: `mouse_x()`: the guard is `if _mouse_position:`, Python truthiness of a
list, i.e. non-emptiness. -/
def mouse_x (s : St) : Except String ℚ :=
  if s.mousePosition ≠ [] then
    Except.ok (user_x s (s.mousePosition.headI : ℤ))
  else
    Except.error "Cant determine mouse position if a click hasnt happened"

/-- Source: `mouse_y()` -/
def mouse_y (s : St) : Except String ℚ :=
  if s.mousePosition ≠ [] then
    Except.ok (user_y s ((s.mousePosition.drop 1).headI : ℤ))
  else
    Except.error "Cant determine mouse position if a click hasnt happened"

/-- The observable actions of `show`: publishing the frame (blit + flip),
polling the event queue (`_check_for_events`), and sleeping. -/
inductive ShowAct where
  | publish
  | poll
  | sleep (d : ℚ)
deriving DecidableEq, Repr

/-- The `while seconds_waited < second` loop at the end of `show`, with a
recursion budget.  Each iteration sleeps one quantum (0.1 s) and polls. -/
def showLoop : Nat → ℚ → ℚ → List ShowAct
  | 0, _, _ => []
  | fuel + 1, waited, second =>
    if waited < second then
      ShowAct.sleep (1/10) :: ShowAct.poll :: showLoop fuel (waited + 1/10) second
    else []

/-- The action trace of `show(m_second)` for a finite `m_second` (the
infinite default never returns).  `_show()` publishes and polls once, then
`show` polls again; a sub-quantum duration sleeps once and returns; longer
durations run the quantum loop.  The loop adds `1/10` to `seconds_waited`
each iteration, so `10 * ⌈second⌉ + 1` iterations always cover it. -/
def showTrace (mSecond : ℚ) : List ShowAct :=
  let quantum : ℚ := 1/10
  let second := mSecond / 1000
  [ShowAct.publish, ShowAct.poll, ShowAct.poll] ++
  (if second < quantum then [ShowAct.sleep second]
   else showLoop (10 * (⌈second⌉).toNat + 1) 0 second)

/-! ## Theorems -/

/-- C1: for every coordinate scale with `xMin < xMax` and `yMin < yMax` and a
nonzero canvas, `_user_x` inverts `_scale_x` and `_user_y` inverts `_scale_y`
exactly (the rational model has no rounding, so the floating-point-tolerance
clause is satisfied with zero error); moreover the y mapping inverts the
axis: the top of the user range maps to device row 0 and the bottom to row
`canvasHeight`, so device y grows downward. -/
theorem scale_unscale_inverse (s : St) (hx : s.xMin < s.xMax) (hy : s.yMin < s.yMax)
    (hw : s.canvasWidth ≠ 0) (hh : s.canvasHeight ≠ 0) (x y : ℚ) :
    user_x s (scale_x s x) = x ∧ user_y s (scale_y s y) = y ∧
    scale_y s s.yMax = 0 ∧ scale_y s s.yMin = s.canvasHeight := by
  have hx' : s.xMax - s.xMin ≠ 0 := sub_ne_zero.mpr (ne_of_gt hx)
  have hy' : s.yMax - s.yMin ≠ 0 := sub_ne_zero.mpr (ne_of_gt hy)
  unfold user_x scale_x user_y scale_y
  refine ⟨?_, ?_, ?_, ?_⟩
  · field_simp
  · field_simp
  · simp
  · field_simp

theorem scale_unscale_inverse_witness :
    user_x initialState (scale_x initialState (1/3)) = 1/3 ∧
    user_y initialState (scale_y initialState (2/3)) = 2/3 ∧
    scale_y initialState initialState.yMax = 0 ∧
    scale_y initialState initialState.yMin = initialState.canvasHeight :=
  scale_unscale_inverse initialState (by norm_num [initialState])
    (by norm_num [initialState]) (by norm_num [initialState])
    (by norm_num [initialState]) (1/3) (2/3)

/-- C4: `set_canvas_size(w, h)` fails exactly when the window has already
been created or `w < 1` or `h < 1`; after one successful call (which creates
the window) every further call fails, whatever its arguments.  On failure the
state is unchanged, since both raises precede every assignment. -/
theorem set_canvas_size_spec (w h : ℚ) (s : St) :
    ((∃ e, set_canvas_size w h s = Except.error e) ↔
      (s.windowCreated = true ∨ w < 1 ∨ h < 1)) ∧
    (∀ w2 h2 : ℚ, s.windowCreated = false → 1 ≤ w → 1 ≤ h →
      ∃ e, (set_canvas_size w h s).bind (set_canvas_size w2 h2) = Except.error e) := by
  constructor
  · by_cases hwin : s.windowCreated
    · simp [set_canvas_size, hwin]
    · by_cases hd : w < 1 ∨ h < 1
      · simp [set_canvas_size, hwin, hd]
      · simp [set_canvas_size, hwin, hd]
  · intro w2 h2 hwin hw1 hh1
    refine ⟨"The stddraw window already was created", ?_⟩
    simp [set_canvas_size, hwin, not_lt.mpr hw1, not_lt.mpr hh1, Except.bind]

theorem set_canvas_size_spec_witness :
    ∃ e, (set_canvas_size 200 100 initialState).bind (set_canvas_size 300 300) =
      Except.error e :=
  (set_canvas_size_spec 200 100 initialState).2 300 300 rfl (by norm_num) (by norm_num)

/-- C5: `set_pen_radius(r)` raises for `r < 0` (before the stored radius is
touched, so it stays unchanged) and for `r ≥ 0` stores `r * 512` — the fixed
default canvas size — whatever the live canvas dimensions of the state are. -/
theorem set_pen_radius_spec (r : ℚ) (s : St) :
    (r < 0 → set_pen_radius r s = Except.error "Argument to set_pen_radius() must be non-neg") ∧
    (0 ≤ r → set_pen_radius r s = Except.ok { s with penRadius := r * 512 }) := by
  constructor
  · intro hr; simp [set_pen_radius, hr]
  · intro hr; simp [set_pen_radius, not_lt.mpr hr, DEFAULT_CANVAS_SIZE]

theorem set_pen_radius_spec_witness :
    set_pen_radius (1/2) initialState =
      Except.ok { initialState with penRadius := (1/2) * 512 } :=
  (set_pen_radius_spec (1/2) initialState).2 (by norm_num)

/-- C10: each pen-state setter is a pure record update of its own field
(respectively field pair), leaving the canvas buffers, the remaining pen
fields, the input queue and the mouse record untouched. -/
theorem setters_frame (s : St) (c : Color) (f : String) (sz : ℤ) (a b : ℚ)
    (hab : a < b) :
    set_pen_color c s = { s with penColor := c } ∧
    set_font_family f s = { s with fontFamily := f } ∧
    set_font_size sz s = { s with fontSize := sz } ∧
    set_x_scale a b s = Except.ok { s with xMin := a, xMax := b } ∧
    set_y_scale a b s = Except.ok { s with yMin := a, yMax := b } := by
  refine ⟨rfl, rfl, rfl, ?_, ?_⟩
  · simp [set_x_scale, not_le.mpr hab, BORDER]
  · simp [set_y_scale, not_le.mpr hab, BORDER]

theorem setters_frame_witness :
    set_pen_color WHITE initialState = { initialState with penColor := WHITE } ∧
    set_font_family "Courier" initialState = { initialState with fontFamily := "Courier" } ∧
    set_font_size 16 initialState = { initialState with fontSize := 16 } ∧
    set_x_scale 0 10 initialState = Except.ok { initialState with xMin := 0, xMax := 10 } ∧
    set_y_scale 0 10 initialState = Except.ok { initialState with yMin := 0, yMax := 10 } :=
  setters_frame initialState WHITE "Courier" 16 0 10 (by norm_num)

/-- C3: the no-click guard in `mouse_x` and `mouse_y` tests Python truthiness
of the position list, which starts as `[0, 0]` and is never emptied, so in
the initial state — where no left-click has ever been recorded and the
pressed flag is still false — neither function raises; both return the
user-space conversion of pixel `(0, 0)`, contradicting their docstrings. -/
theorem mouse_query_without_click :
    initialState.mousePressed = false ∧
    mouse_x initialState = Except.ok 0 ∧
    mouse_y initialState = Except.ok 1 := by
  refine ⟨rfl, ?_, ?_⟩
  · unfold mouse_x
    rw [if_pos (by decide : initialState.mousePosition ≠ [])]
    norm_num [initialState, user_x]
  · unfold mouse_y
    rw [if_pos (by decide : initialState.mousePosition ≠ [])]
    norm_num [initialState, user_y]

/-- Helper: popping the key list removes and returns its last element. -/
theorem next_key_typed_eq (s : St) (ks : List String) (k : String)
    (h : s.keysTyped = ks ++ [k]) :
    next_key_typed s = Except.ok (k, { s with keysTyped := ks }) := by
  unfold next_key_typed
  rw [h]
  simp [List.getLast?_concat, List.dropLast_concat]

/-- C2 counterexample: after key-down events a then b, the first call to
`next_key_typed()` returns a — the oldest key — not b as the claim states
(`pop()` removes the last list element, and key-downs prepend). -/
theorem next_key_typed_lifo_counterexample :
    (next_key_typed (check_for_events [Event.keyDown "a", Event.keyDown "b"]
        initialState)).map Prod.fst = Except.ok "a" ∧ "a" ≠ "b" := by
  constructor
  · rw [show check_for_events [Event.keyDown "a", Event.keyDown "b"] initialState =
        { ensureWindow initialState with keysTyped := ["b", "a"] } from rfl]
    rw [next_key_typed_eq _ ["b"] "a" rfl]
    rfl
  · decide

/-- C2 amended: the key queue is oldest-first (FIFO).  Key-down events
prepend to the list and `next_key_typed()` pops the last element, so after
events a then b it returns a then b, each call removing the key it returns;
on an empty queue it raises (Python `IndexError` from `pop`). -/
theorem key_queue_fifo (s : St) (a b : String) (h : s.keysTyped = []) :
    next_key_typed s = Except.error "pop from empty list" ∧
    ∃ s3, next_key_typed (check_for_events [Event.keyDown a, Event.keyDown b] s)
        = Except.ok (a, s3) ∧
      next_key_typed s3 = Except.ok (b, { s3 with keysTyped := [] }) := by
  have hkeys : (ensureWindow s).keysTyped = [] := by
    unfold ensureWindow; split <;> simpa using h
  constructor
  · unfold next_key_typed
    rw [h]
    rfl
  · have hstate : check_for_events [Event.keyDown a, Event.keyDown b] s =
        { ensureWindow s with keysTyped := [b] ++ ([a] ++ (ensureWindow s).keysTyped) } :=
      rfl
    refine ⟨{ ensureWindow s with keysTyped := [b] }, ?_, ?_⟩
    · rw [hstate]
      exact next_key_typed_eq _ [b] a (by simp [hkeys])
    · exact next_key_typed_eq _ [] b (by simp)

theorem key_queue_fifo_witness :
    next_key_typed initialState = Except.error "pop from empty list" ∧
    ∃ s3, next_key_typed (check_for_events [Event.keyDown "a", Event.keyDown "b"]
        initialState) = Except.ok ("a", s3) ∧
      next_key_typed s3 = Except.ok ("b", { s3 with keysTyped := [] }) :=
  key_queue_fifo initialState "a" "b" rfl

/-- Helper: creating the window twice is the same as creating it once. -/
theorem ensureWindow_idem (s : St) : ensureWindow (ensureWindow s) = ensureWindow s := by
  unfold ensureWindow
  by_cases h : s.windowCreated <;> simp [h]

/-- C9: `square(x, y, r)` has exactly the effect of
`rectangle(x - r, y - r, 2r, 2r)` on every state, and `filled_square` that of
`filled_rectangle` with the same arguments — a square of side `2r` centered
on `(x, y)`. -/
theorem square_delegates (x y r : ℚ) (s : St) :
    square x y r s = rectangle (x - r) (y - r) (2 * r) (2 * r) s ∧
    filled_square x y r s = filled_rectangle (x - r) (y - r) (2 * r) (2 * r) s := by
  constructor
  · show rectangle (x - r) (y - r) (2 * r) (2 * r) (ensureWindow s) = _
    unfold rectangle
    rw [ensureWindow_idem]
  · show filled_rectangle (x - r) (y - r) (2 * r) (2 * r) (ensureWindow s) = _
    unfold filled_rectangle
    rw [ensureWindow_idem]

/-- The single-pixel command that `_pixel(x, y)` appends on a state whose
window exists. -/
def pixelCmd (s : St) (x y : ℚ) : DrawCmd :=
  DrawCmd.pixel (pyRound (scale_x s x)) (pyRound (scale_y s y)) s.penColor

/-- Helper: the surface after `_pixel` on an ensured state. -/
theorem pixelOp_surface_eq (x y : ℚ) (s : St) :
    (pixelOp x y (ensureWindow s)).surface =
      (ensureWindow s).surface ++ [pixelCmd (ensureWindow s) x y] := by
  unfold pixelOp pixelCmd
  rw [ensureWindow_idem]

/-- C6 counterexample: with the default scale and canvas, a circle of radius
`3/2560` has device extent `1.2` in both dimensions, which *rounds* to 1
pixel, yet the code draws the full ellipse — the fallback fires on the
un-rounded comparison `extent ≤ 1.0`, not on the rounded extent. -/
theorem degenerate_round_counterexample :
    pyRound (factor_x (ensureWindow initialState) (2 * (3/2560))) ≤ 1 ∧
    pyRound (factor_y (ensureWindow initialState) (2 * (3/2560))) ≤ 1 ∧
    (circle (1/2) (1/2) (3/2560) initialState).surface ≠
      (ensureWindow initialState).surface ++
        [pixelCmd (ensureWindow initialState) (1/2) (1/2)] := by
  have hfx : factor_x (ensureWindow initialState) (2 * (3/2560)) = 6/5 := by
    norm_num [factor_x, ensureWindow, initialState]
  have hfy : factor_y (ensureWindow initialState) (2 * (3/2560)) = 6/5 := by
    norm_num [factor_y, ensureWindow, initialState]
  have hfloor : ⌊(6/5 : ℚ)⌋ = 1 := by
    rw [Int.floor_eq_iff]
    norm_num
  have hround : pyRound (6/5 : ℚ) = 1 := by
    unfold pyRound
    rw [hfloor]
    norm_num
  refine ⟨by rw [hfx, hround], by rw [hfy, hround], ?_⟩
  have hneg : ¬ (factor_x (ensureWindow initialState) (2 * (3/2560)) ≤ 1 ∧
      factor_y (ensureWindow initialState) (2 * (3/2560)) ≤ 1) := by
    rw [hfx, hfy]
    norm_num
  simp only [circle]
  rw [if_neg hneg]
  intro hEq
  simp only [List.append_cancel_left_eq] at hEq
  simp [pixelCmd] at hEq

/-- C6 amended: each of the four shape primitives draws exactly the single
pixel at its anchor precisely when the computed device-space extent is at
most 1.0 in each dimension — the code compares the un-rounded extents
against 1, not their roundings to whole pixels; otherwise it draws the full
shape. -/
theorem degenerate_size_fallback (x y r w h : ℚ) (s : St) :
    ((circle x y r s).surface =
        (ensureWindow s).surface ++ [pixelCmd (ensureWindow s) x y] ↔
      factor_x (ensureWindow s) (2 * r) ≤ 1 ∧ factor_y (ensureWindow s) (2 * r) ≤ 1) ∧
    ((filled_circle x y r s).surface =
        (ensureWindow s).surface ++ [pixelCmd (ensureWindow s) x y] ↔
      factor_x (ensureWindow s) (2 * r) ≤ 1 ∧ factor_y (ensureWindow s) (2 * r) ≤ 1) ∧
    ((rectangle x y w h s).surface =
        (ensureWindow s).surface ++ [pixelCmd (ensureWindow s) x y] ↔
      factor_x (ensureWindow s) w ≤ 1 ∧ factor_y (ensureWindow s) h ≤ 1) ∧
    ((filled_rectangle x y w h s).surface =
        (ensureWindow s).surface ++ [pixelCmd (ensureWindow s) x y] ↔
      factor_x (ensureWindow s) w ≤ 1 ∧ factor_y (ensureWindow s) h ≤ 1) := by
  refine ⟨?_, ?_, ?_, ?_⟩
  · by_cases hc : factor_x (ensureWindow s) (2 * r) ≤ 1 ∧
        factor_y (ensureWindow s) (2 * r) ≤ 1
    · unfold circle
      rw [if_pos hc]
      exact iff_of_true (pixelOp_surface_eq x y s) hc
    · unfold circle
      rw [if_neg hc]
      refine iff_of_false ?_ hc
      intro hEq
      simp only [List.append_cancel_left_eq] at hEq
      simp [pixelCmd] at hEq
  · by_cases hc : factor_x (ensureWindow s) (2 * r) ≤ 1 ∧
        factor_y (ensureWindow s) (2 * r) ≤ 1
    · unfold filled_circle
      rw [if_pos hc]
      exact iff_of_true (pixelOp_surface_eq x y s) hc
    · unfold filled_circle
      rw [if_neg hc]
      refine iff_of_false ?_ hc
      intro hEq
      simp only [List.append_cancel_left_eq] at hEq
      simp [pixelCmd] at hEq
  · by_cases hc : factor_x (ensureWindow s) w ≤ 1 ∧ factor_y (ensureWindow s) h ≤ 1
    · unfold rectangle
      rw [if_pos hc]
      exact iff_of_true (pixelOp_surface_eq x y s) hc
    · unfold rectangle
      rw [if_neg hc]
      refine iff_of_false ?_ hc
      intro hEq
      simp only [List.append_cancel_left_eq] at hEq
      simp [pixelCmd] at hEq
  · by_cases hc : factor_x (ensureWindow s) w ≤ 1 ∧ factor_y (ensureWindow s) h ≤ 1
    · unfold filled_rectangle
      rw [if_pos hc]
      exact iff_of_true (pixelOp_surface_eq x y s) hc
    · unfold filled_rectangle
      rw [if_neg hc]
      refine iff_of_false ?_ hc
      intro hEq
      simp only [List.append_cancel_left_eq] at hEq
      simp [pixelCmd] at hEq

/-- Helper: the wait loop emits complete sleep-then-poll slices, so the
event queue is re-checked on every slice boundary. -/
theorem showLoop_slices (fuel : Nat) :
    ∀ waited second : ℚ, ∃ k : Nat,
      showLoop fuel waited second =
        (List.replicate k [ShowAct.sleep (1/10), ShowAct.poll]).flatten := by
  induction fuel with
  | zero => intro w sec; exact ⟨0, rfl⟩
  | succ n ih =>
    intro w sec
    unfold showLoop
    by_cases h : w < sec
    · rw [if_pos h]
      obtain ⟨k, hk⟩ := ih (w + 1/10) sec
      exact ⟨k + 1, by rw [hk]; rfl⟩
    · rw [if_neg h]
      exact ⟨0, rfl⟩

/-- C8 counterexample: for a 50 ms wait the trace of `show` contains two
polls between publishing and the sleep — `_show()` polls once and `show`
polls again — so the claim that the queue is polled once is false. -/
theorem show_polls_twice_counterexample :
    showTrace 50 = [ShowAct.publish, ShowAct.poll, ShowAct.poll, ShowAct.sleep (50/1000)] ∧
    showTrace 50 ≠ [ShowAct.publish, ShowAct.poll, ShowAct.sleep (50/1000)] := by
  have h : showTrace 50 =
      [ShowAct.publish, ShowAct.poll, ShowAct.poll, ShowAct.sleep (50/1000)] := by
    simp only [showTrace]
    rw [if_pos (by norm_num : (50 : ℚ)/1000 < 1/10)]
    rfl
  refine ⟨h, ?_⟩
  rw [h]
  simp

/-- C8 amended: `show(m_second)` publishes the frame and polls the event
queue twice (once inside the frame copy, once more directly); a finite
duration below one 100 ms slice then sleeps exactly that duration and
returns with no further polling, while longer durations run whole
sleep-then-poll slices, polling on every slice boundary. -/
theorem show_trace_spec (m : ℚ) :
    (m / 1000 < 1/10 →
      showTrace m =
        [ShowAct.publish, ShowAct.poll, ShowAct.poll, ShowAct.sleep (m/1000)]) ∧
    (¬ m / 1000 < 1/10 →
      ∃ k : Nat, showTrace m = [ShowAct.publish, ShowAct.poll, ShowAct.poll] ++
        (List.replicate k [ShowAct.sleep (1/10), ShowAct.poll]).flatten) := by
  constructor
  · intro h
    simp only [showTrace]
    rw [if_pos h]
    rfl
  · intro h
    simp only [showTrace]
    rw [if_neg h]
    obtain ⟨k, hk⟩ := showLoop_slices (10 * (⌈m / 1000⌉).toNat + 1) 0 (m / 1000)
    exact ⟨k, by rw [hk]⟩

theorem show_trace_spec_witness :
    showTrace 50 =
      [ShowAct.publish, ShowAct.poll, ShowAct.poll, ShowAct.sleep (50/1000)] :=
  (show_trace_spec 50).1 (by norm_num)

/-- Two states that agree on the six fields the coordinate mapper reads. -/
def sameGeom (s t : St) : Prop :=
  s.xMin = t.xMin ∧ s.xMax = t.xMax ∧ s.yMin = t.yMin ∧ s.yMax = t.yMax ∧
  s.canvasWidth = t.canvasWidth ∧ s.canvasHeight = t.canvasHeight

/-- Helper: the coordinate mapper only depends on the geometry fields. -/
theorem scale_of_sameGeom {s t : St} (h : sameGeom s t) (a : ℚ) :
    scale_x s a = scale_x t a ∧ scale_y s a = scale_y t a := by
  obtain ⟨h1, h2, h3, h4, h5, h6⟩ := h
  unfold scale_x scale_y
  rw [h1, h2, h3, h4, h5, h6]
  exact ⟨rfl, rfl⟩

/-- Helper: once the window exists, `filled_circle` only appends to the
surface; the geometry fields and the created flag survive. -/
theorem filled_circle_sameGeom (x y r : ℚ) (s : St) (hw : s.windowCreated = true) :
    sameGeom (filled_circle x y r s) s ∧ (filled_circle x y r s).windowCreated = true := by
  have he : ensureWindow s = s := by
    unfold ensureWindow
    rw [if_pos hw]
  unfold filled_circle pixelOp
  rw [he]
  by_cases hc : factor_x s (2 * r) ≤ 1 ∧ factor_y s (2 * r) ≤ 1
  · rw [if_pos hc, he]
    exact ⟨⟨rfl, rfl, rfl, rfl, rfl, rfl⟩, hw⟩
  · rw [if_neg hc]
    exact ⟨⟨rfl, rfl, rfl, rfl, rfl, rfl⟩, hw⟩

/-- Helper: with both scaled deltas below `2 ^ n`, a budget of `n + 1` levels
suffices for the midpoint subdivision: each bisection halves the scaled
deltas, geometry is preserved along the way, and the recursion bottoms out
in the one-filled-circle base case. -/
theorem thickLineFuel_total (n : Nat) :
    ∀ (x0 y0 x1 y1 r : ℚ) (s : St), s.windowCreated = true →
      |scale_x s x0 - scale_x s x1| < 2 ^ n →
      |scale_y s y0 - scale_y s y1| < 2 ^ n →
      ∃ s', thickLineFuel (n + 1) x0 y0 x1 y1 r s = some s' ∧
        sameGeom s' s ∧ s'.windowCreated = true := by
  induction n with
  | zero =>
    intro x0 y0 x1 y1 r s hw hx hy
    have hcond : |scale_x s x0 - scale_x s x1| < 1 ∧ |scale_y s y0 - scale_y s y1| < 1 := by
      constructor
      · simpa using hx
      · simpa using hy
    refine ⟨filled_circle x0 y0 r s, ?_, (filled_circle_sameGeom x0 y0 r s hw).1,
      (filled_circle_sameGeom x0 y0 r s hw).2⟩
    unfold thickLineFuel
    rw [if_pos hcond]
  | succ n ih =>
    intro x0 y0 x1 y1 r s hw hx hy
    by_cases hcond : |scale_x s x0 - scale_x s x1| < 1 ∧ |scale_y s y0 - scale_y s y1| < 1
    · refine ⟨filled_circle x0 y0 r s, ?_, (filled_circle_sameGeom x0 y0 r s hw).1,
        (filled_circle_sameGeom x0 y0 r s hw).2⟩
      unfold thickLineFuel
      rw [if_pos hcond]
    · have half : ∀ d : ℚ, d < 2 ^ (n + 1) → d / 2 < 2 ^ n := by
        intro d hd
        rw [div_lt_iff₀ (by norm_num : (0:ℚ) < 2)]
        calc d < 2 ^ (n + 1) := hd
          _ = 2 ^ n * 2 := pow_succ 2 n
      have hxa : scale_x s x0 - scale_x s ((x0 + x1) / 2) =
          (scale_x s x0 - scale_x s x1) / 2 := by
        unfold scale_x; ring
      have hxb : scale_x s ((x0 + x1) / 2) - scale_x s x1 =
          (scale_x s x0 - scale_x s x1) / 2 := by
        unfold scale_x; ring
      have hya : scale_y s y0 - scale_y s ((y0 + y1) / 2) =
          (scale_y s y0 - scale_y s y1) / 2 := by
        unfold scale_y; ring
      have hyb : scale_y s ((y0 + y1) / 2) - scale_y s y1 =
          (scale_y s y0 - scale_y s y1) / 2 := by
        unfold scale_y; ring
      have hx1 : |scale_x s x0 - scale_x s ((x0 + x1) / 2)| < 2 ^ n := by
        rw [hxa, abs_div]
        exact half _ (by simpa using hx)
      have hy1 : |scale_y s y0 - scale_y s ((y0 + y1) / 2)| < 2 ^ n := by
        rw [hya, abs_div]
        exact half _ (by simpa using hy)
      obtain ⟨s1, hrun1, hg1, hw1⟩ :=
        ih x0 y0 ((x0 + x1) / 2) ((y0 + y1) / 2) r s hw hx1 hy1
      have hx2 : |scale_x s1 ((x0 + x1) / 2) - scale_x s1 x1| < 2 ^ n := by
        rw [(scale_of_sameGeom hg1 ((x0 + x1) / 2)).1, (scale_of_sameGeom hg1 x1).1,
          hxb, abs_div]
        exact half _ (by simpa using hx)
      have hy2 : |scale_y s1 ((y0 + y1) / 2) - scale_y s1 y1| < 2 ^ n := by
        rw [(scale_of_sameGeom hg1 ((y0 + y1) / 2)).2, (scale_of_sameGeom hg1 y1).2,
          hyb, abs_div]
        exact half _ (by simpa using hy)
      obtain ⟨s2, hrun2, hg2, hw2⟩ :=
        ih ((x0 + x1) / 2) ((y0 + y1) / 2) x1 y1 r s1 hw1 hx2 hy2
      have hgeom : sameGeom s2 s := by
        obtain ⟨a1, a2, a3, a4, a5, a6⟩ := hg2
        obtain ⟨b1, b2, b3, b4, b5, b6⟩ := hg1
        exact ⟨a1.trans b1, a2.trans b2, a3.trans b3, a4.trans b4,
          a5.trans b5, a6.trans b6⟩
      refine ⟨s2, ?_, hgeom, hw2⟩
      unfold thickLineFuel
      rw [if_neg hcond]
      simp only [hrun1]
      exact hrun2

/-- C7: for every pair of endpoints, radius and state with the window
created (as `line` guarantees before it calls `_thick_line`), the midpoint
subdivision of `_thick_line` terminates — some finite recursion budget
reaches `some` — because every bisection exactly halves the scaled deltas;
and when both endpoints already map within one device pixel of each other a
single `filled_circle` is drawn there. -/
theorem thick_line_terminates (x0 y0 x1 y1 r : ℚ) (s : St)
    (hw : s.windowCreated = true) :
    (∃ n s', thickLineFuel n x0 y0 x1 y1 r s = some s') ∧
    (|scale_x s x0 - scale_x s x1| < 1 ∧ |scale_y s y0 - scale_y s y1| < 1 →
      thickLineFuel 1 x0 y0 x1 y1 r s = some (filled_circle x0 y0 r s)) := by
  constructor
  · obtain ⟨k, hk⟩ := exists_nat_gt
      (max |scale_x s x0 - scale_x s x1| |scale_y s y0 - scale_y s y1|)
    have hpow : (k : ℚ) ≤ 2 ^ k := by
      have := Nat.lt_two_pow k
      exact_mod_cast this.le
    have hx : |scale_x s x0 - scale_x s x1| < 2 ^ k :=
      lt_of_le_of_lt (le_max_left _ _) (lt_of_lt_of_le hk hpow)
    have hy : |scale_y s y0 - scale_y s y1| < 2 ^ k :=
      lt_of_le_of_lt (le_max_right _ _) (lt_of_lt_of_le hk hpow)
    obtain ⟨s', hs', -, -⟩ := thickLineFuel_total k x0 y0 x1 y1 r s hw hx hy
    exact ⟨k + 1, s', hs'⟩
  · intro hcond
    unfold thickLineFuel
    rw [if_pos hcond]

theorem thick_line_terminates_witness :
    ∃ n s', thickLineFuel n 0 0 1 1 (1/100) (ensureWindow initialState) = some s' :=
  (thick_line_terminates 0 0 1 1 (1/100) (ensureWindow initialState) rfl).1

end StdDraw
